import Mathlib

/-!
Shallow embedding of the IdeaFlowApp backend (src/server.js, src/database.js).

The server is an Express/PostgreSQL CRUD application.  We model the database
as lists of rows, and each HTTP handler as a pure function from a database
state and the request's inputs to a new state plus a response value.  A SQL
transaction (BEGIN/COMMIT/ROLLBACK) becomes all-or-nothing state passing:
failure branches return the input state unchanged.

The `files` column stores JSON text produced by `JSON.stringify` and read
back with `JSON.parse`.  We embed the JSON fragment this repository actually
exercises: `null`, booleans, integer numerals, strings (with backslash
escapes) and arrays.  Objects, floats, `\u` escapes and surrounding
whitespace are outside the fragment; no claim below depends on them.
-/

namespace IdeaFlow

/-- JSON values (the fragment used by the server's `files` handling). -/
inductive Json : Type
  | null : Json
  | bool : Bool → Json
  | num : Int → Json
  | str : String → Json
  | arr : List Json → Json
  deriving Repr

mutual

/-- Decidable equality for `Json` (the nested `arr` constructor prevents
automatic derivation). -/
def Json.decEq : (a b : Json) → Decidable (a = b)
  | .null, .null => isTrue rfl
  | .bool a, .bool b =>
    if h : a = b then isTrue (by rw [h]) else isFalse (fun he => h (by cases he; rfl))
  | .num a, .num b =>
    if h : a = b then isTrue (by rw [h]) else isFalse (fun he => h (by cases he; rfl))
  | .str a, .str b =>
    if h : a = b then isTrue (by rw [h]) else isFalse (fun he => h (by cases he; rfl))
  | .arr a, .arr b =>
    match Json.decEqList a b with
    | isTrue h => isTrue (by rw [h])
    | isFalse h => isFalse (fun he => h (by cases he; rfl))
  | .null, .bool _ => isFalse nofun
  | .null, .num _ => isFalse nofun
  | .null, .str _ => isFalse nofun
  | .null, .arr _ => isFalse nofun
  | .bool _, .null => isFalse nofun
  | .bool _, .num _ => isFalse nofun
  | .bool _, .str _ => isFalse nofun
  | .bool _, .arr _ => isFalse nofun
  | .num _, .null => isFalse nofun
  | .num _, .bool _ => isFalse nofun
  | .num _, .str _ => isFalse nofun
  | .num _, .arr _ => isFalse nofun
  | .str _, .null => isFalse nofun
  | .str _, .bool _ => isFalse nofun
  | .str _, .num _ => isFalse nofun
  | .str _, .arr _ => isFalse nofun
  | .arr _, .null => isFalse nofun
  | .arr _, .bool _ => isFalse nofun
  | .arr _, .num _ => isFalse nofun
  | .arr _, .str _ => isFalse nofun

/-- Decidable equality for lists of `Json` values. -/
def Json.decEqList : (a b : List Json) → Decidable (a = b)
  | [], [] => isTrue rfl
  | [], _ :: _ => isFalse nofun
  | _ :: _, [] => isFalse nofun
  | a :: as, b :: bs =>
    match Json.decEq a b, Json.decEqList as bs with
    | isTrue h1, isTrue h2 => isTrue (by rw [h1, h2])
    | isFalse h1, _ => isFalse (fun he => h1 (by cases he; rfl))
    | isTrue _, isFalse h2 => isFalse (fun he => h2 (by cases he; rfl))

end

instance : DecidableEq Json := Json.decEq

/-- Escape one character the way `JSON.stringify` quotes string contents
(quote and backslash; the paths stored by the server contain neither). -/
def escChar (c : Char) : List Char :=
  if c = '"' ∨ c = '\\' then ['\\', c] else [c]

/-- Escape a character list for embedding in a JSON string literal. -/
def escList : List Char → List Char
  | [] => []
  | c :: cs => escChar c ++ escList cs

/-- Encode a string as a JSON string literal. -/
def encStr (s : String) : String :=
  "\"" ++ String.mk (escList s.data) ++ "\""

mutual

/-- `JSON.stringify` on the embedded fragment. -/
def jsonStringify : Json → String
  | .null => "null"
  | .bool true => "true"
  | .bool false => "false"
  | .num n => toString n
  | .str s => encStr s
  | .arr xs => "[" ++ stringifyElems xs ++ "]"

/-- Comma-separated encoding of array elements. -/
def stringifyElems : List Json → String
  | [] => ""
  | [x] => jsonStringify x
  | x :: y :: tl => jsonStringify x ++ "," ++ stringifyElems (y :: tl)

end

/-- Decode a JSON string-literal escape character. -/
def unescChar (c : Char) : Option Char :=
  if c = '"' then some '"'
  else if c = '\\' then some '\\'
  else if c = '/' then some '/'
  else if c = 'n' then some '\n'
  else if c = 't' then some '\t'
  else if c = 'r' then some '\r'
  else if c = 'b' then some (Char.ofNat 8)
  else if c = 'f' then some (Char.ofNat 12)
  else none

/-- Parse the contents of a JSON string literal after its opening quote;
returns the decoded characters and the input remaining after the closing
quote. -/
def parseStrChars : List Char → Option (List Char × List Char)
  | [] => none
  | c :: cs =>
    if c = '"' then some ([], cs)
    else if c = '\\' then
      match cs with
      | [] => none
      | e :: cs2 =>
        match unescChar e, parseStrChars cs2 with
        | some u, some (s, r) => some (u :: s, r)
        | _, _ => none
    else
      match parseStrChars cs with
      | some (s, r) => some (c :: s, r)
      | none => none

/-- Split a leading run of decimal digits. -/
def takeDigits : List Char → List Char × List Char
  | [] => ([], [])
  | c :: cs =>
    if c.isDigit then
      let (d, r) := takeDigits cs
      (c :: d, r)
    else ([], c :: cs)

/-- Numeric value of a digit list. -/
def natOfDigits (ds : List Char) : Nat :=
  ds.foldl (fun a c => a * 10 + (c.toNat - 48)) 0

mutual

/-- Fuel-indexed recursive-descent parser for one JSON value; returns the
value and the remaining input. -/
def parseVal : Nat → List Char → Option (Json × List Char)
  | 0, _ => none
  | _ + 1, [] => none
  | fuel + 1, c :: cs =>
    if c = '"' then
      match parseStrChars cs with
      | some (s, r) => some (.str (String.mk s), r)
      | none => none
    else if c = '[' then
      match cs with
      | ']' :: r => some (.arr [], r)
      | _ =>
        match parseElems fuel cs with
        | some (es, r) => some (.arr es, r)
        | none => none
    else if c = 'n' then
      match cs with
      | 'u' :: 'l' :: 'l' :: r => some (.null, r)
      | _ => none
    else if c = 't' then
      match cs with
      | 'r' :: 'u' :: 'e' :: r => some (.bool true, r)
      | _ => none
    else if c = 'f' then
      match cs with
      | 'a' :: 'l' :: 's' :: 'e' :: r => some (.bool false, r)
      | _ => none
    else if c = '-' then
      match takeDigits cs with
      | ([], _) => none
      | (ds, r) => some (.num (-(natOfDigits ds : Int)), r)
    else if c.isDigit then
      match takeDigits (c :: cs) with
      | (ds, r) => some (.num (natOfDigits ds), r)
    else none

/-- Parse one or more comma-separated values followed by a closing
bracket. -/
def parseElems : Nat → List Char → Option (List Json × List Char)
  | 0, _ => none
  | fuel + 1, cs =>
    match parseVal fuel cs with
    | none => none
    | some (j, r) =>
      match r with
      | ',' :: r2 =>
        match parseElems fuel r2 with
        | some (js, r3) => some (j :: js, r3)
        | none => none
      | ']' :: r2 => some ([j], r2)
      | _ => none

end

/-- `JSON.parse` on the embedded fragment: the whole input must be consumed. -/
def jsonParse (s : String) : Option Json :=
  match parseVal (s.length + 1) s.data with
  | some (j, []) => some j
  | _ => none

example : jsonParse "[]" = some (.arr []) := by decide
example : jsonParse "[\"a\",\"b\"]" = some (.arr [.str "a", .str "b"]) := by decide
example : jsonParse "\"abc\"" = some (.str "abc") := by decide
example : jsonParse "null" = some .null := by decide
example : jsonParse "not json" = none := by decide
example : jsonStringify (.arr [.str "a", .str "b"]) = "[\"a\",\"b\"]" := by decide

/-- Parsing undoes escaping: the contents of an encoded string literal
decode back to the original characters. -/
theorem parseStrChars_escList (cs k : List Char) :
    parseStrChars (escList cs ++ ('"' :: k)) = some (cs, k) := by
  induction cs with
  | nil =>
    simp only [escList, List.nil_append]
    rw [parseStrChars.eq_def]
    simp
  | cons c cs ih =>
    by_cases hc : c = '"' ∨ c = '\\'
    · have h1 : escChar c = ['\\', c] := by simp [escChar, hc]
      have h2 : unescChar c = some c := by
        rcases hc with h | h <;> simp [unescChar, h]
      rw [escList, h1]
      simp only [List.cons_append, List.append_assoc]
      rw [parseStrChars.eq_def]
      simp +decide [h2, ih]
    · push_neg at hc
      have h1 : escChar c = [c] := by
        simp [escChar, hc.1, hc.2]
      rw [escList, h1]
      simp only [List.cons_append, List.append_assoc]
      rw [parseStrChars.eq_def]
      simp [hc.1, hc.2, ih]

/-- The character list underlying an encoded string literal. -/
theorem encStr_data (s : String) :
    (encStr s).data = '"' :: (escList s.data ++ ['"']) := by
  simp [encStr, String.data_append]

/-- Specialization of the parser to an opening quote (holds by unfolding
the structural recursion one step). -/
theorem parseVal_quote (f : Nat) (cs : List Char) :
    parseVal (f + 1) ('"' :: cs) =
      match parseStrChars cs with
      | some (s, r) => some (.str (String.mk s), r)
      | none => none := rfl

/-- Specialization of the parser to a bracket followed by a string
literal (the shape of every encoded nonempty array of strings). -/
theorem parseVal_lbrack_quote (f : Nat) (r : List Char) :
    parseVal (f + 1) ('[' :: '"' :: r) =
      match parseElems f ('"' :: r) with
      | some (es, r2) => some (.arr es, r2)
      | none => none := rfl

/-- One-step unfolding of the element parser at positive fuel. -/
theorem parseElems_succ (f : Nat) (cs : List Char) :
    parseElems (f + 1) cs =
      match parseVal f cs with
      | none => none
      | some (j, r) =>
        match r with
        | ',' :: r2 =>
          match parseElems f r2 with
          | some (js, r3) => some (j :: js, r3)
          | none => none
        | ']' :: r2 => some ([j], r2)
        | _ => none := rfl

/-- The parser accepts an encoded string literal at any positive fuel. -/
theorem parseVal_encStr (f : Nat) (s : String) (k : List Char) :
    parseVal (f + 1) ((encStr s).data ++ k) = some (.str s, k) := by
  rw [encStr_data]
  have hassoc : ((escList s.data ++ ['"']) ++ k) = escList s.data ++ ('"' :: k) := by
    simp
  simp only [List.cons_append, hassoc]
  rw [parseVal_quote, parseStrChars_escList]

/-- The parser accepts encoded comma-separated strings up to a closing
bracket, given fuel exceeding the element count. -/
theorem parseElems_strList (xs : List String) :
    ∀ (x : String) (f : Nat) (k : List Char),
      parseElems (xs.length + f + 2)
          ((stringifyElems ((x :: xs).map .str)).data ++ (']' :: k)) =
        some ((x :: xs).map .str, k) := by
  induction xs with
  | nil =>
    intro x f k
    simp only [List.map_cons, List.map_nil, stringifyElems, jsonStringify]
    have hfuel : ([] : List String).length + f + 2 = (f + 1) + 1 := by simp
    rw [hfuel, parseElems_succ]
    have hv := parseVal_encStr f x (']' :: k)
    rw [hv]
    rfl
  | cons y tl ih =>
    intro x f k
    have hfuel : (y :: tl).length + f + 2 = (tl.length + f + 2) + 1 := by
      simp
      omega
    rw [hfuel]
    simp only [List.map_cons, stringifyElems, jsonStringify]
    have hdata :
        (encStr x ++ "," ++
            stringifyElems (Json.str y :: tl.map .str)).data ++ (']' :: k)
          = (encStr x).data ++
              (',' :: ((stringifyElems (Json.str y :: tl.map .str)).data ++ (']' :: k))) := by
      simp [String.data_append]
    rw [parseElems_succ, hdata]
    have hv := parseVal_encStr (tl.length + f + 1)
      x (',' :: ((stringifyElems (Json.str y :: tl.map .str)).data ++ (']' :: k)))
    have hfuel2 : tl.length + f + 1 + 1 = tl.length + f + 2 := by omega
    rw [hfuel2] at hv
    rw [hv]
    have htail := ih y f k
    simp only [List.map_cons] at htail
    show (match parseElems (tl.length + f + 2)
            ((stringifyElems (Json.str y :: tl.map .str)).data ++ (']' :: k)) with
          | some (js, r3) => some (Json.str x :: js, r3)
          | none => none) = _
    rw [htail]

/-- The parser accepts an encoded nonempty array of strings. -/
theorem parseVal_encArr (x : String) (xs : List String) (f : Nat) (k : List Char) :
    parseVal (xs.length + f + 3)
        ((jsonStringify (.arr ((x :: xs).map .str))).data ++ k) =
      some (.arr ((x :: xs).map .str), k) := by
  have hfuel : xs.length + f + 3 = (xs.length + f + 2) + 1 := by omega
  have hstr : jsonStringify (.arr ((x :: xs).map .str))
      = "[" ++ stringifyElems ((x :: xs).map .str) ++ "]" := by
    rw [jsonStringify]
  have hhead : ∃ r, (stringifyElems ((x :: xs).map .str)).data
      = '"' :: (r ++ (']' :: k)) → True := ⟨[], fun _ => trivial⟩
  clear hhead
  have hq : ∃ r, (stringifyElems ((x :: xs).map .str)).data = '"' :: r := by
    cases xs with
    | nil =>
      refine ⟨escList x.data ++ ['"'], ?_⟩
      simp only [List.map_cons, List.map_nil, stringifyElems, jsonStringify]
      exact encStr_data x
    | cons y tl =>
      refine ⟨(escList x.data ++ ['"']) ++
        ("," ++ stringifyElems ((y :: tl).map .str)).data, ?_⟩
      simp only [List.map_cons, stringifyElems, jsonStringify]
      simp [String.data_append, encStr_data]
  obtain ⟨r, hr⟩ := hq
  have hdata : (("[" ++ stringifyElems ((x :: xs).map .str) ++ "]").data ++ k)
      = '[' :: '"' :: (r ++ (']' :: k)) := by
    have hr2 := hr
    simp only [List.map_cons] at hr2
    simp [String.data_append, hr, hr2]
  rw [hfuel, hstr, hdata, parseVal_lbrack_quote]
  have hm := parseElems_strList xs x f k
  rw [hr] at hm
  simp only [List.cons_append] at hm
  rw [hm]

/-- Lower bound on the length of an encoded string literal. -/
theorem encStr_length_ge (x : String) : 2 ≤ (encStr x).length := by
  have h1 : ("\"" : String).length = 1 := rfl
  simp [encStr, String.length_append, h1]

/-- Lower bound on the length of encoded array elements: one more than
the number of elements. -/
theorem stringifyElems_strs_length (l : List String) (h : l ≠ []) :
    l.length + 1 ≤ (stringifyElems (l.map .str)).length := by
  induction l with
  | nil => simp at h
  | cons x tl ih =>
    cases tl with
    | nil =>
      have hx := encStr_length_ge x
      simp only [List.map_cons, List.map_nil, stringifyElems, jsonStringify]
      simpa using hx
    | cons y tl2 =>
      have h1 := encStr_length_ge x
      have h2 := ih (by simp)
      simp only [List.map_cons, stringifyElems, jsonStringify] at h2 ⊢
      have hc : ("," : String).length = 1 := rfl
      simp only [String.length_append, List.length_cons, hc] at h2 ⊢
      omega

/-- Round trip: an encoded array of strings parses back to itself.  This
is the parse/stringify relationship behind every `files` write the server
performs. -/
theorem jsonParse_stringify_strs (xs : List String) :
    jsonParse (jsonStringify (.arr (xs.map .str))) = some (.arr (xs.map .str)) := by
  cases xs with
  | nil => decide
  | cons x tl =>
    have hlen : tl.length + 3 ≤ (jsonStringify (.arr ((x :: tl).map .str))).length + 1 := by
      have h := stringifyElems_strs_length (x :: tl) (by simp)
      have hstr : jsonStringify (.arr ((x :: tl).map .str))
          = "[" ++ stringifyElems ((x :: tl).map .str) ++ "]" := by
        rw [jsonStringify]
      rw [hstr]
      have hb1 : ("[" : String).length = 1 := rfl
      have hb2 : ("]" : String).length = 1 := rfl
      simp only [String.length_append, hb1, hb2, List.length_cons] at h ⊢
      omega
    obtain ⟨f, hf⟩ : ∃ f, (jsonStringify (.arr ((x :: tl).map .str))).length + 1
        = tl.length + f + 3 :=
      ⟨(jsonStringify (.arr ((x :: tl).map .str))).length + 1 - (tl.length + 3), by omega⟩
    unfold jsonParse
    rw [hf]
    have hv := parseVal_encArr x tl f []
    rw [List.append_nil] at hv
    rw [hv]

/-! ## Data model

Row types mirror the tables created in src/database.js (Users, Cases,
ProcessedCases, Projects, Reviews).  `TEXT` columns that the schema allows
to be NULL are `Option String`; `files` is the raw TEXT column holding
JSON-encoded data.  `ProcessedCases.executorId` is the column the server
writes on accept and filters on at completion.  `createdAt` timestamps
carry no logic and are not modelled.  The `id` columns are `SERIAL`:
modelled by a next-id counter per table. -/

structure UserRow where
  id : Nat
  email : String
  password : String
  firstName : Option String := none
  lastName : Option String := none
  photo : Option String := none
  descr : Option String := none
  deriving DecidableEq, Repr

structure CaseRow where
  id : Nat
  userId : Nat
  title : String
  theme : Option String := none
  descr : Option String := none
  cover : Option String := none
  files : Option String := none
  status : String := "open"
  deriving DecidableEq, Repr

structure ProcessedCaseRow where
  id : Nat
  caseId : Nat
  userId : Nat
  title : String
  theme : Option String := none
  descr : Option String := none
  cover : Option String := none
  files : Option String := none
  status : String := "in_process"
  executorId : Option Nat := none
  executorEmail : Option String := none
  deriving DecidableEq, Repr

structure ProjectRow where
  id : Nat
  caseId : Nat
  userId : Nat
  title : String
  theme : Option String := none
  descr : Option String := none
  cover : Option String := none
  files : Option String := none
  status : String := "closed"
  executorEmail : Option String := none
  deriving DecidableEq, Repr

structure ReviewRow where
  id : Nat
  userId : Nat
  reviewerId : Nat
  reviewerName : Option String := none
  reviewerPhoto : Option String := none
  text : String
  rating : Int
  deriving DecidableEq, Repr

/-- The database state: the five tables plus the SERIAL counters. -/
structure DB where
  users : List UserRow := []
  cases : List CaseRow := []
  processedCases : List ProcessedCaseRow := []
  projects : List ProjectRow := []
  reviews : List ReviewRow := []
  nextUserId : Nat := 1
  nextCaseId : Nat := 1
  nextPCId : Nat := 1
  nextProjectId : Nat := 1
  nextReviewId : Nat := 1
  deriving DecidableEq, Repr

/-- JS `a || b` where `a` is an optional request-body string: absent
(undefined) and the empty string are falsy and fall back to `b`. -/
def jsOrStr (v : Option String) (d : String) : String :=
  match v with
  | none => d
  | some s => if s = "" then d else s

/-- JS `a || b` where the fallback is itself a nullable column value. -/
def jsOrOptStr (v : Option String) (d : Option String) : Option String :=
  match v with
  | none => d
  | some s => if s = "" then d else some s

/-! ## Reading `files` back (GET /api/cases and GET /api/cases/:id)

src/server.js lines 342-372 and 440-469: starting from `files = []`, a
truthy stored string is passed to `JSON.parse` inside try/catch (parse
failure keeps `[]`); the parsed value is used as-is, with no check that
it is an array of strings.  A NULL column or empty string stays `[]`.
(The `Array.isArray` branch is dead for a TEXT column, which the driver
always surfaces as a string.) -/

/-- The value of the `files` field the server sends back for a stored
column value. -/
def decodeFiles (stored : Option String) : Json :=
  match stored with
  | none => .arr []
  | some s =>
    if s = "" then .arr []
    else
      match jsonParse s with
      | some j => j
      | none => .arr []

/-- Whether a JSON value is a list of strings. -/
def isStringList : Json → Bool
  | .arr xs => xs.all (fun j => match j with | .str _ => true | _ => false)
  | _ => false

/-- The JSON object shape returned for a Case by GET /api/cases and
GET /api/cases/:id (lines 359-371 and 457-469; the LEFT JOIN on Users
provides userEmail). -/
structure CaseView where
  id : Nat
  title : String
  descr : String
  theme : String
  status : String
  userId : Nat
  userEmail : Option String
  cover : Option String
  files : Json
  deriving DecidableEq, Repr

/-- Row shaping shared by the two Case read endpoints. -/
def shapeCase (st : DB) (c : CaseRow) : CaseView :=
  { id := c.id
    title := if c.title = "" then "" else c.title
    descr := c.descr.getD ""
    theme := c.theme.getD ""
    status := if c.status = "" then "open" else c.status
    userId := c.userId
    userEmail := (st.users.find? (fun u => u.id == c.userId)).map (fun u => u.email)
    cover := c.cover
    files := decodeFiles c.files }

/-- GET /api/cases with optional userId filter (ordering by createdAt is
not modelled; no claim depends on it). -/
def getCases (st : DB) (userId : Option Nat) : List CaseView :=
  (match userId with
   | none => st.cases
   | some uid => st.cases.filter (fun c => c.userId == uid)).map (shapeCase st)

/-- GET /api/cases/:id (404 when the row is absent). -/
def getCaseById (st : DB) (id : Nat) : Option CaseView :=
  (st.cases.find? (fun c => c.id == id)).map (shapeCase st)

/-! ## Handlers

Request-body fields are `Option`-typed: `none` models an absent
(undefined) JSON field.  JS truthiness tests (`!x`) treat `none` as falsy;
for string-bodied fields the empty string is falsy too, and for
number-bodied fields `0` is falsy.  Each handler mirrors one route of
src/server.js; SQL constraint failures (UNIQUE, CHECK, foreign keys on
columns the handler writes) surface as an error result with the state
unchanged, matching the rolled-back transaction or failed single
statement. -/

/-- Result of POST /api/register (lines 179-198). -/
inductive RegisterResult
  | missingFields
  | duplicateEmail
  | ok (id : Nat) (email : String)
  deriving DecidableEq, Repr

/-- HTTP status of a register result (400 / 400 / 200). -/
def RegisterResult.status : RegisterResult → Nat
  | .missingFields => 400
  | .duplicateEmail => 400
  | .ok _ _ => 200

/-- POST /api/register: presence check, bcrypt hash (abstracted as the
function argument), INSERT with the UNIQUE(email) constraint surfacing
as error code 23505 which the catch maps to a 400 duplicate message. -/
def register (bhash : String → String) (st : DB) (email password : Option String) :
    DB × RegisterResult :=
  if email = none ∨ email = some "" ∨ password = none ∨ password = some "" then
    (st, .missingFields)
  else
    let e := email.getD ""
    let p := password.getD ""
    if st.users.any (fun u => u.email == e) then (st, .duplicateEmail)
    else
      let u : UserRow := { id := st.nextUserId, email := e, password := bhash p }
      ({ st with users := st.users ++ [u], nextUserId := st.nextUserId + 1 },
       .ok st.nextUserId e)

/-- Result of POST /api/login (lines 201-236). -/
inductive LoginResult
  | userNotFound
  | wrongPassword
  | ok (id : Nat) (email : String) (firstName lastName photo : Option String)
  deriving DecidableEq, Repr

/-- HTTP status of a login result (400 / 400 / 200). -/
def LoginResult.status : LoginResult → Nat
  | .userNotFound => 400
  | .wrongPassword => 400
  | .ok _ _ _ _ _ => 200

/-- POST /api/login: SELECT by email, bcrypt.compare (abstracted as the
function argument), then either 400 or the user's public fields.  The
handler only reads, so it returns no new state. -/
def login (bcompare : String → String → Bool) (st : DB) (email password : String) :
    LoginResult :=
  match st.users.find? (fun u => u.email == email) with
  | none => .userNotFound
  | some u =>
    if bcompare password u.password then
      .ok u.id u.email u.firstName u.lastName u.photo
    else .wrongPassword

/-- Body of PUT /api/profile/:id; a `none` field is JS `undefined`, which
the pg driver binds as NULL. -/
structure ProfileBody where
  firstName : Option String := none
  lastName : Option String := none
  photo : Option String := none
  descr : Option String := none
  deriving DecidableEq, Repr

/-- Response of PUT /api/profile/:id: always HTTP 200 with a message; the
`user` field carries RETURNING * row 0 and is absent when no row matched
(lines 264-279; there is no 404 branch). -/
structure ProfileUpdateResp where
  status : Nat
  user : Option UserRow
  deriving DecidableEq, Repr

/-- PUT /api/profile/:id: one UPDATE of the four profile columns, every
matching row rewritten, email and password untouched. -/
def updateProfile (st : DB) (id : Nat) (b : ProfileBody) : DB × ProfileUpdateResp :=
  let updated := st.users.map (fun u =>
    if u.id == id then
      { u with firstName := b.firstName, lastName := b.lastName,
               photo := b.photo, descr := b.descr }
    else u)
  ({ st with users := updated },
   { status := 200, user := updated.find? (fun u => u.id == id) })

/-- Result of POST /api/cases (lines 284-309). -/
inductive CreateCaseResult
  | missingFields
  | dbError
  | ok (id : Nat)
  deriving DecidableEq, Repr

/-- HTTP status of a case-creation result (400 / 500 / 200). -/
def CreateCaseResult.status : CreateCaseResult → Nat
  | .missingFields => 400
  | .dbError => 500
  | .ok _ => 200

/-- POST /api/cases: multipart body (all fields strings, so only absence
or emptiness is falsy), `theme || ''` and `description || ''` defaults,
`files` stored as `JSON.stringify` of the uploaded paths, status 'open'.
The INSERT's FK on userId fails when the user is absent (500, nothing
stored). -/
def createCase (st : DB) (userId : Option Nat) (title theme descr : Option String)
    (cover : Option String) (filesPaths : List String) : DB × CreateCaseResult :=
  if userId = none ∨ title = none ∨ title = some "" then
    (st, .missingFields)
  else
    let uid := userId.getD 0
    if st.users.any (fun u => u.id == uid) then
      let c : CaseRow := {
        id := st.nextCaseId, userId := uid, title := title.getD "",
        theme := some (jsOrStr theme ""), descr := some (jsOrStr descr ""),
        cover := cover,
        files := some (jsonStringify (.arr (filesPaths.map .str))),
        status := "open" }
      ({ st with cases := st.cases ++ [c], nextCaseId := st.nextCaseId + 1 },
       .ok st.nextCaseId)
    else (st, .dbError)

/-- Result of PUT /api/cases/:id/accept (lines 485-532). -/
inductive AcceptResult
  | badParams
  | notFound
  | dbError
  | ok (caseId : Nat)
  deriving DecidableEq, Repr

/-- HTTP status of an accept result (400 / 404 / 500 / 200). -/
def AcceptResult.status : AcceptResult → Nat
  | .badParams => 400
  | .notFound => 404
  | .dbError => 500
  | .ok _ => 200

/-- PUT /api/cases/:id/accept.  `caseIdParam = none` models a
non-numeric :id (`Number` gives NaN); `executorId` comes from the JSON
body so 0 is falsy.  Inside one transaction: SELECT the Case (404 +
ROLLBACK when absent), resolve the executor's email (NULL when the user
is absent), INSERT the ProcessedCase copy with status 'in_process', and
UPDATE the Case to 'accepted'.  There is no check of the Case's current
status.  A failing INSERT (FK on the owner) rolls the whole transaction
back. -/
def acceptCase (st : DB) (caseIdParam executorId : Option Nat) : DB × AcceptResult :=
  if executorId = none ∨ executorId = some 0 ∨ caseIdParam = none then
    (st, .badParams)
  else
    let cid := caseIdParam.getD 0
    let eid := executorId.getD 0
    match st.cases.find? (fun c => c.id == cid) with
    | none => (st, .notFound)
    | some caseRow =>
      if st.users.any (fun u => u.id == caseRow.userId) then
        let pc : ProcessedCaseRow := {
          id := st.nextPCId, caseId := caseRow.id, userId := caseRow.userId,
          title := caseRow.title, theme := caseRow.theme, descr := caseRow.descr,
          cover := caseRow.cover, files := caseRow.files, status := "in_process",
          executorId := some eid,
          executorEmail := (st.users.find? (fun u => u.id == eid)).map (fun u => u.email) }
        ({ st with
            processedCases := st.processedCases ++ [pc],
            cases := st.cases.map (fun c =>
              if c.id == cid then { c with status := "accepted" } else c),
            nextPCId := st.nextPCId + 1 },
         .ok cid)
      else (st, .dbError)

/-- Result of POST /api/processed-cases/:id/upload-files (lines 640-665). -/
inductive UploadResult
  | noFiles
  | notFound
  | serverError
  | ok (files : Json)
  deriving DecidableEq, Repr

/-- HTTP status of an upload result (400 / 404 / 500 / 200). -/
def UploadResult.status : UploadResult → Nat
  | .noFiles => 400
  | .notFound => 404
  | .serverError => 500
  | .ok _ => 200

/-- JS `existingFiles.concat(newFiles)`: array concat for arrays; for a
string, `String.prototype.concat` stringifies the array (join with
commas); for null/number/boolean `.concat` is a TypeError. -/
def jsConcatPaths : Json → List String → Option Json
  | .arr js, newFiles => some (.arr (js ++ newFiles.map .str))
  | .str s, newFiles => some (.str (s ++ String.intercalate "," newFiles))
  | _, _ => none

/-- POST /api/processed-cases/:id/upload-files: parse the stored value
(throw → catch → 500, nothing written), concat the new paths, stringify
and UPDATE. -/
def uploadFiles (st : DB) (pcId : Nat) (newFiles : List String) : DB × UploadResult :=
  if newFiles.isEmpty then (st, .noFiles)
  else
    match st.processedCases.find? (fun pc => pc.id == pcId) with
    | none => (st, .notFound)
    | some pc =>
      let parsed : Option Json :=
        match pc.files with
        | none => some (.arr [])
        | some s => if s = "" then some (.arr []) else jsonParse s
      match parsed with
      | none => (st, .serverError)
      | some existing =>
        match jsConcatPaths existing newFiles with
        | none => (st, .serverError)
        | some updated =>
          ({ st with processedCases := st.processedCases.map (fun p =>
              if p.id == pcId then { p with files := some (jsonStringify updated) } else p) },
           .ok updated)

/-- Body of PUT /api/processed-cases/:id/complete. -/
structure CompleteBody where
  userId : Option Nat := none
  title : Option String := none
  theme : Option String := none
  descr : Option String := none
  cover : Option String := none
  files : Option (List String) := none
  deriving DecidableEq, Repr

/-- Result of PUT /api/processed-cases/:id/complete (lines 668-716). -/
inductive CompleteResult
  | notFound
  | dbError
  | ok (projectId : Nat)
  deriving DecidableEq, Repr

/-- HTTP status of a complete result (404 / 500 / 200). -/
def CompleteResult.status : CompleteResult → Nat
  | .notFound => 404
  | .dbError => 500
  | .ok _ => 200

/-- The SELECT's WHERE id = $1 AND executorId = $2: SQL `=` with a NULL
operand matches nothing, so an absent body userId or NULL executorId
never matches. -/
def pcScopedMatch (pcIdParam uid : Option Nat) (pc : ProcessedCaseRow) : Bool :=
  pcIdParam == some pc.id &&
    match uid, pc.executorId with
    | some u, some e => u == e
    | _, _ => false

/-- PUT /api/processed-cases/:id/complete.  No input validation; in one
transaction: SELECT the ProcessedCase scoped by id and executorId (404 +
ROLLBACK when absent), resolve executor email, INSERT a Project whose
title/theme/description/cover default through JS `||` and whose files are
the stringified body array or the ProcessedCase's stored value, status
'closed', then DELETE the ProcessedCase.  FK failures on the INSERT roll
everything back. -/
def completeCase (st : DB) (pcIdParam : Option Nat) (b : CompleteBody) :
    DB × CompleteResult :=
  match st.processedCases.find? (pcScopedMatch pcIdParam b.userId) with
  | none => (st, .notFound)
  | some pCase =>
    let uid := b.userId.getD 0
    if st.cases.any (fun c => c.id == pCase.caseId) &&
       st.users.any (fun u => u.id == pCase.userId) then
      let pr : ProjectRow := {
        id := st.nextProjectId, caseId := pCase.caseId, userId := pCase.userId,
        title := jsOrStr b.title pCase.title,
        theme := jsOrOptStr b.theme pCase.theme,
        descr := jsOrOptStr b.descr pCase.descr,
        cover := jsOrOptStr b.cover pCase.cover,
        files := (match b.files with
                  | some fs => some (jsonStringify (.arr (fs.map .str)))
                  | none => pCase.files),
        status := "closed",
        executorEmail := (st.users.find? (fun u => u.id == uid)).map (fun u => u.email) }
      ({ st with
          projects := st.projects ++ [pr],
          processedCases := st.processedCases.filter (fun pc => pc.id != pCase.id),
          nextProjectId := st.nextProjectId + 1 },
       .ok st.nextProjectId)
    else (st, .dbError)

/-- Result of POST /api/reviews (lines 909-929). -/
inductive PostReviewResult
  | missingFields
  | dbError
  | ok (reviews : List ReviewRow)
  deriving DecidableEq, Repr

/-- HTTP status of a review-post result (400 / 500 / 200). -/
def PostReviewResult.status : PostReviewResult → Nat
  | .missingFields => 400
  | .dbError => 500
  | .ok _ => 200

/-- POST /api/reviews: JSON-body falsiness check on userId, text, rating
and reviewerId (absent, 0 or empty string); INSERT with the
CHECK (rating between 1 and 5) and the user FKs; on success the handler
re-reads and returns all Reviews of the subject user. -/
def postReview (st : DB) (userId reviewerId : Option Nat)
    (reviewerName reviewerPhoto : Option String)
    (text : Option String) (rating : Option Int) : DB × PostReviewResult :=
  if userId = none ∨ userId = some 0 ∨ text = none ∨ text = some "" ∨
     rating = none ∨ rating = some 0 ∨ reviewerId = none ∨ reviewerId = some 0 then
    (st, .missingFields)
  else
    let uid := userId.getD 0
    let rid := reviewerId.getD 0
    let r := rating.getD 0
    if (1 ≤ r ∧ r ≤ 5) ∧
       st.users.any (fun u => u.id == uid) ∧ st.users.any (fun u => u.id == rid) then
      let row : ReviewRow := {
        id := st.nextReviewId, userId := uid, reviewerId := rid,
        reviewerName := reviewerName, reviewerPhoto := reviewerPhoto,
        text := text.getD "", rating := r }
      let st2 := { st with reviews := st.reviews ++ [row],
                           nextReviewId := st.nextReviewId + 1 }
      (st2, .ok (st2.reviews.filter (fun rv => rv.userId == uid)))
    else (st, .dbError)

/-- GET /api/reviews with optional userId filter (lines 878-906). -/
def getReviews (st : DB) (userId : Option Nat) : List ReviewRow :=
  match userId with
  | none => st.reviews
  | some uid => st.reviews.filter (fun rv => rv.userId == uid)

/-! ## Error-response shaping (claim C8)

Several catch blocks put the caught error's own message in the 500
response body. -/

/-- The global fallback error handler, lines 1172-1175:
`res.status(500).json(\x7b error: err.message || 'Внутренняя ошибка сервера' \x7d)`. -/
def globalErrorResponse (errMessage : String) : Nat × String :=
  (500, if errMessage = "" then "Внутренняя ошибка сервера" else errMessage)

/-- The accept handler's catch block, lines 528-531:
`res.status(500).json(\x7b error: err.message || 'Ошибка сервера' \x7d)`. -/
def acceptCatchResponse (errMessage : String) : Nat × String :=
  (500, if errMessage = "" then "Ошибка сервера" else errMessage)

/-! ## Helper lemmas about the handlers -/

/-- Successful accept, spelled as a full state/response equation
(src/server.js lines 497-520 with every transaction step applied). -/
theorem acceptCase_success_eq (st : DB) (cid eid : Nat) (c : CaseRow) (heid : eid ≠ 0)
    (hfound : st.cases.find? (fun x => x.id == cid) = some c)
    (howner : st.users.any (fun u => u.id == c.userId) = true) :
    acceptCase st (some cid) (some eid) =
      ({ st with
          processedCases := st.processedCases ++ [{
            id := st.nextPCId, caseId := c.id, userId := c.userId, title := c.title,
            theme := c.theme, descr := c.descr, cover := c.cover, files := c.files,
            status := "in_process", executorId := some eid,
            executorEmail := (st.users.find? (fun u => u.id == eid)).map (fun u => u.email) }],
          cases := st.cases.map (fun x =>
            if x.id == cid then { x with status := "accepted" } else x),
          nextPCId := st.nextPCId + 1 },
       .ok cid) := by
  unfold acceptCase
  simp [heid, hfound, howner]

/-- A non-successful accept leaves the state untouched (the transaction
rolls back, or nothing was written yet). -/
theorem acceptCase_fail_unchanged (st : DB) (p e : Option Nat)
    (h : ∀ k, (acceptCase st p e).2 ≠ AcceptResult.ok k) :
    (acceptCase st p e).1 = st := by
  unfold acceptCase
  by_cases h1 : e = none ∨ e = some 0 ∨ p = none
  · simp [h1]
  · simp only [h1, if_false]
    cases hf : st.cases.find? (fun c => c.id == p.getD 0) with
    | none => rfl
    | some caseRow =>
      by_cases h2 : st.users.any (fun u => u.id == caseRow.userId) = true
      · exfalso
        apply h (p.getD 0)
        unfold acceptCase
        simp [h1, hf, h2]
      · simp [h2]

/-- Successful completion, spelled as a full state/response equation
(src/server.js lines 676-704 with every transaction step applied). -/
theorem completeCase_success_eq (st : DB) (pid : Nat) (b : CompleteBody)
    (pCase : ProcessedCaseRow)
    (hfound : st.processedCases.find? (pcScopedMatch (some pid) b.userId) = some pCase)
    (hfk : (st.cases.any (fun c => c.id == pCase.caseId) &&
            st.users.any (fun u => u.id == pCase.userId)) = true) :
    completeCase st (some pid) b =
      ({ st with
          projects := st.projects ++ [{
            id := st.nextProjectId, caseId := pCase.caseId, userId := pCase.userId,
            title := jsOrStr b.title pCase.title,
            theme := jsOrOptStr b.theme pCase.theme,
            descr := jsOrOptStr b.descr pCase.descr,
            cover := jsOrOptStr b.cover pCase.cover,
            files := (match b.files with
                      | some fs => some (jsonStringify (.arr (fs.map .str)))
                      | none => pCase.files),
            status := "closed",
            executorEmail := (st.users.find? (fun u => u.id == b.userId.getD 0)).map
              (fun u => u.email) }],
          processedCases := st.processedCases.filter (fun pc => pc.id != pCase.id),
          nextProjectId := st.nextProjectId + 1 },
       .ok st.nextProjectId) := by
  unfold completeCase
  simp [hfound, hfk]

/-- A non-successful completion leaves the state untouched. -/
theorem completeCase_fail_unchanged (st : DB) (p : Option Nat) (b : CompleteBody)
    (h : ∀ k, (completeCase st p b).2 ≠ CompleteResult.ok k) :
    (completeCase st p b).1 = st := by
  unfold completeCase
  cases hf : st.processedCases.find? (pcScopedMatch p b.userId) with
  | none => rfl
  | some pCase =>
    by_cases h2 : (st.cases.any (fun c => c.id == pCase.caseId) &&
        st.users.any (fun u => u.id == pCase.userId)) = true
    · exfalso
      apply h st.nextProjectId
      unfold completeCase
      simp [hf, h2]
    · simp [h2]

/-- Updating the status of the found row is what a later read sees. -/
theorem find?_map_setStatus (l : List CaseRow) (cid : Nat) (c : CaseRow)
    (h : l.find? (fun x => x.id == cid) = some c) :
    (l.map (fun x => if x.id == cid then { x with status := "accepted" } else x)).find?
      (fun x => x.id == cid) = some { c with status := "accepted" } := by
  have hpc : (fun (x : CaseRow) => x.id == cid) ∘
      (fun x => if x.id == cid then { x with status := "accepted" } else x)
        = fun x => x.id == cid := by
    funext x
    by_cases hx : x.id = cid <;> simp [hx]
  rw [List.find?_map, hpc, h]
  have hc := List.find?_some h
  simp only [Option.map_some']
  simp [hc]

/-! ## Claim C5: duplicate registration -/

/-- C5: registering a fresh email (with email and password present)
succeeds with 200 and the new id/email; an immediately repeated
registration of the same email answers 400 duplicate-email and leaves the
whole stored state (in particular the Users table) unchanged. -/
theorem register_duplicate_spec (bhash : String → String) (st : DB) (e p : String)
    (he : e ≠ "") (hp : p ≠ "")
    (hfresh : st.users.any (fun u => u.email == e) = false) :
    (register bhash st (some e) (some p)).2 = .ok st.nextUserId e ∧
    ((register bhash st (some e) (some p)).2).status = 200 ∧
    register bhash (register bhash st (some e) (some p)).1 (some e) (some p)
      = ((register bhash st (some e) (some p)).1, .duplicateEmail) ∧
    RegisterResult.status .duplicateEmail = 400 := by
  have h1 : register bhash st (some e) (some p)
      = ({ st with
            users := st.users ++ [{ id := st.nextUserId, email := e, password := bhash p }],
            nextUserId := st.nextUserId + 1 },
         .ok st.nextUserId e) := by
    unfold register
    simp [he, hp, hfresh]
  refine ⟨by rw [h1], by rw [h1]; rfl, ?_, rfl⟩
  rw [h1]
  unfold register
  simp [he, hp, List.any_append]

/-- C5 witness: the generic theorem applied to an empty database. -/
theorem register_duplicate_spec_witness :
    (register (fun p => p) {} (some "a@b.c") (some "pw")).2 = .ok 1 "a@b.c" ∧
    register (fun p => p) (register (fun p => p) {} (some "a@b.c") (some "pw")).1
        (some "a@b.c") (some "pw")
      = ((register (fun p => p) {} (some "a@b.c") (some "pw")).1, .duplicateEmail) := by
  have h := register_duplicate_spec (fun p => p) {} "a@b.c" "pw"
    (by decide) (by decide) (by decide)
  exact ⟨h.1, h.2.2.1⟩

/-! ## Claim C6: login outcomes -/

/-- C6: POST /api/login answers 200 with the user's public fields
(id, email, firstName, lastName, photo) when the email is registered and
the password matches the stored hash; 400 when the email is registered
but the password does not match; 400 when no user has the email.  The
handler is read-only, so stored state never changes (it is modelled as a
function that returns no state). -/
theorem login_spec (bcompare : String → String → Bool) (st : DB) (email pw : String) :
    (∀ u, st.users.find? (fun v => v.email == email) = some u →
      (bcompare pw u.password = true →
        login bcompare st email pw = .ok u.id u.email u.firstName u.lastName u.photo ∧
        (login bcompare st email pw).status = 200) ∧
      (bcompare pw u.password = false →
        login bcompare st email pw = .wrongPassword ∧
        (login bcompare st email pw).status = 400)) ∧
    (st.users.find? (fun v => v.email == email) = none →
      login bcompare st email pw = .userNotFound ∧
      (login bcompare st email pw).status = 400) := by
  constructor
  · intro u hu
    constructor
    · intro hb
      constructor <;> simp [login, hu, hb, LoginResult.status]
    · intro hb
      constructor <;> simp [login, hu, hb, LoginResult.status]
  · intro h
    constructor <;> simp [login, h, LoginResult.status]

/-- C6 witness: a one-user database exercising all three outcomes. -/
theorem login_spec_witness :
    login (fun p h => p == h)
        { users := [{ id := 1, email := "a@b.c", password := "pw" }] } "a@b.c" "pw"
      = .ok 1 "a@b.c" none none none ∧
    login (fun p h => p == h)
        { users := [{ id := 1, email := "a@b.c", password := "pw" }] } "a@b.c" "xx"
      = .wrongPassword ∧
    login (fun p h => p == h)
        { users := [{ id := 1, email := "a@b.c", password := "pw" }] } "zz" "pw"
      = .userNotFound := by
  refine ⟨?_, ?_, ?_⟩
  · exact (((login_spec (fun p h => p == h)
      { users := [{ id := 1, email := "a@b.c", password := "pw" }] } "a@b.c" "pw").1
      { id := 1, email := "a@b.c", password := "pw" } (by decide)).1 (by decide)).1
  · exact (((login_spec (fun p h => p == h)
      { users := [{ id := 1, email := "a@b.c", password := "pw" }] } "a@b.c" "xx").1
      { id := 1, email := "a@b.c", password := "pw" } (by decide)).2 (by decide)).1
  · exact ((login_spec (fun p h => p == h)
      { users := [{ id := 1, email := "a@b.c", password := "pw" }] } "zz" "pw").2
      (by decide)).1

/-! ## Claim C8: 500 responses leak the internal error message -/

/-- C8 counterexample: both the global fallback handler (lines 1172-1175)
and the accept handler's catch (lines 528-531) place the caught error's
own message in the 500 response body, so internal details do reach the
client; the generic texts are only used when the message is empty. -/
theorem error_leak_cex :
    globalErrorResponse "duplicate key value violates unique constraint"
      = (500, "duplicate key value violates unique constraint") ∧
    (globalErrorResponse "duplicate key value violates unique constraint").2
      ≠ "Внутренняя ошибка сервера" ∧
    acceptCatchResponse "insert or update on table \"ProcessedCases\" violates foreign key constraint"
      = (500, "insert or update on table \"ProcessedCases\" violates foreign key constraint") ∧
    (acceptCatchResponse "insert or update on table \"ProcessedCases\" violates foreign key constraint").2
      ≠ "Ошибка сервера" := by
  refine ⟨rfl, by decide, rfl, by decide⟩

/-- C8 amended: unexpected errors do produce a 500 status, but the
top-level fallback handler and the accept handler's catch return the
underlying error's message verbatim whenever it is non-empty, falling
back to their generic texts only for an empty message; internal details
are therefore exposed rather than hidden. -/
theorem error_response_amended_spec (m : String) (h : m ≠ "") :
    globalErrorResponse m = (500, m) ∧ acceptCatchResponse m = (500, m) := by
  constructor <;> simp [globalErrorResponse, acceptCatchResponse, h]

/-- C8 amended witness. -/
theorem error_response_amended_spec_witness :
    globalErrorResponse "connection refused" = (500, "connection refused") ∧
    acceptCatchResponse "connection refused" = (500, "connection refused") :=
  error_response_amended_spec "connection refused" (by decide)

/-! ## Claim C10: PUT /api/profile/:id -/

/-- C10: the profile update always answers 200, overwrites exactly the
four profile columns of every row with the matching id with the body's
values (an omitted field becomes NULL), never touches email or password,
leaves every other table untouched, and when no user has the id it
changes nothing and the response's user field is absent — there is no
404 branch. -/
theorem profile_update_spec (st : DB) (id : Nat) (b : ProfileBody) :
    (updateProfile st id b).2.status = 200 ∧
    List.Forall₂ (fun (u v : UserRow) =>
        v.email = u.email ∧ v.password = u.password ∧
        (u.id = id → v.firstName = b.firstName ∧ v.lastName = b.lastName ∧
          v.photo = b.photo ∧ v.descr = b.descr) ∧
        (u.id ≠ id → v = u))
      st.users (updateProfile st id b).1.users ∧
    (updateProfile st id b).1.cases = st.cases ∧
    (updateProfile st id b).1.processedCases = st.processedCases ∧
    (updateProfile st id b).1.projects = st.projects ∧
    (updateProfile st id b).1.reviews = st.reviews ∧
    (st.users.find? (fun u => u.id == id) = none →
      (updateProfile st id b).1 = st ∧ (updateProfile st id b).2.user = none) := by
  refine ⟨rfl, ?_, rfl, rfl, rfl, rfl, ?_⟩
  · show List.Forall₂ _ st.users (st.users.map _)
    rw [List.forall₂_map_right_iff, List.forall₂_same]
    intro u hu
    by_cases hid : u.id = id <;> simp [hid]
  · intro hnone
    have hid : ∀ a ∈ st.users, ¬ a.id = id := by
      intro a ha
      have := List.find?_eq_none.1 hnone a ha
      simpa using this
    have hm : st.users.map (fun u =>
        if u.id == id then
          { u with
            firstName := b.firstName, lastName := b.lastName,
            photo := b.photo, descr := b.descr }
        else u) = st.users := by
      conv_rhs => rw [← List.map_id st.users]
      apply List.map_congr_left
      intro a ha
      simp [hid a ha]
    constructor
    · show ({ st with users := _ } : DB) = st
      rw [hm]
    · show (st.users.map _).find? _ = none
      rw [hm, hnone]

/-- C10 witness: updating a non-existent id answers 200 with no user
field and changes nothing. -/
theorem profile_update_spec_witness :
    (updateProfile { users := [{ id := 1, email := "a@b", password := "h" }] } 2
        { firstName := some "X" }).2.status = 200 ∧
    (updateProfile { users := [{ id := 1, email := "a@b", password := "h" }] } 2
        { firstName := some "X" }).1
      = { users := [{ id := 1, email := "a@b", password := "h" }] } ∧
    (updateProfile { users := [{ id := 1, email := "a@b", password := "h" }] } 2
        { firstName := some "X" }).2.user = none := by
  have h := profile_update_spec
    { users := [{ id := 1, email := "a@b", password := "h" }] } 2 { firstName := some "X" }
  have h7 := h.2.2.2.2.2.2 (by decide)
  exact ⟨h.1, h7.1, h7.2⟩

/-! ## Claim C3: `files` is not always a list of strings -/

/-- C3 counterexample: a stored column value that is valid JSON but not
an array — the JSON string literal "abc" — is passed through by the read
endpoints exactly as parsed, so the response's files field is a raw
string, not a list of strings.  (src/server.js lines 346-352 and 446-454
assign the result of JSON.parse with no array check.) -/
theorem files_decode_cex :
    decodeFiles (some "\"abc\"") = Json.str "abc" ∧
    isStringList (Json.str "abc") = false ∧
    getCaseById
        { cases := [{ id := 1, userId := 1, title := "t", files := some "\"abc\"" }] } 1
      = some
          { id := 1, title := "t", descr := "", theme := "", status := "open",
            userId := 1, userEmail := none, cover := none, files := Json.str "abc" } := by
  refine ⟨by decide, by decide, by decide⟩

/-- C3 amended: the files field of a Case read (list and detail endpoints
share the decoding) is a list of strings whenever the stored column is
NULL, the empty string, unparseable JSON, or JSON that parses to an array
of strings; but a stored value that parses to any other JSON value is
returned as parsed — e.g. a stored JSON string literal comes back as a
raw string. -/
theorem files_decode_amended_spec :
    (∀ stored : Option String,
      (∀ s, stored = some s → s ≠ "" → ∀ j, jsonParse s = some j → isStringList j = true) →
      isStringList (decodeFiles stored) = true) ∧
    (∀ st uid v, v ∈ getCases st uid → ∃ c, c ∈ st.cases ∧ v.files = decodeFiles c.files) ∧
    (∀ st i v, getCaseById st i = some v → ∃ c, c ∈ st.cases ∧ v.files = decodeFiles c.files) := by
  refine ⟨?_, ?_, ?_⟩
  · intro stored h
    match stored with
    | none => rfl
    | some s =>
      by_cases hs : s = ""
      · simp [decodeFiles, hs]
        rfl
      · cases hj : jsonParse s with
        | none => simp [decodeFiles, hs, hj]; rfl
        | some j =>
          have hjs := h s rfl hs j hj
          simpa [decodeFiles, hs, hj] using hjs
  · intro st uid v hv
    cases uid with
    | none =>
      rcases List.mem_map.1 hv with ⟨c, hc, hcv⟩
      exact ⟨c, hc, by rw [← hcv]; rfl⟩
    | some u =>
      rcases List.mem_map.1 hv with ⟨c, hc, hcv⟩
      exact ⟨c, (List.mem_filter.1 hc).1, by rw [← hcv]; rfl⟩
  · intro st i v hv
    unfold getCaseById at hv
    rcases Option.map_eq_some'.1 hv with ⟨c, hc, hcv⟩
    exact ⟨c, List.mem_of_find?_eq_some hc, by rw [← hcv]; rfl⟩

/-- C3 amended witness: a stored array of strings decodes to a list of
strings. -/
theorem files_decode_amended_spec_witness :
    isStringList (decodeFiles (some "[\"a\",\"b\"]")) = true := by
  apply files_decode_amended_spec.1 (some "[\"a\",\"b\"]")
  intro s hs hne j hj
  cases hs
  have hp : jsonParse "[\"a\",\"b\"]" = some (.arr [.str "a", .str "b"]) := by decide
  rw [hp] at hj
  cases hj
  decide

/-! ## Claim C7: review rating constraint -/

/-- C7: posting a review whose rating lies outside 1-5 stores nothing
(rating 0 is already rejected by the handler's falsiness check; any
other out-of-range value reaches the INSERT and is rejected by the CHECK
constraint, surfacing as a 500 with nothing written); a rating inside
1-5 is stored and appears in the subsequent GET /api/reviews listing for
the subject user. -/
theorem review_rating_spec (st : DB) (uid rid : Nat) (name photo : Option String)
    (text : String) (huid : uid ≠ 0) (hrid : rid ≠ 0) (htext : text ≠ "")
    (hu : st.users.any (fun u => u.id == uid) = true)
    (hr : st.users.any (fun u => u.id == rid) = true) :
    (∀ r : Int, (r < 1 ∨ 5 < r) →
      (postReview st (some uid) (some rid) name photo (some text) (some r)).1 = st ∧
      (∀ rvs, (postReview st (some uid) (some rid) name photo (some text) (some r)).2
        ≠ .ok rvs) ∧
      (r ≠ 0 →
        (postReview st (some uid) (some rid) name photo (some text) (some r)).2
          = .dbError ∧
        PostReviewResult.status .dbError = 500)) ∧
    (∀ r : Int, 1 ≤ r → r ≤ 5 →
      (postReview st (some uid) (some rid) name photo (some text) (some r)).1.reviews
        = st.reviews ++
          [{ id := st.nextReviewId, userId := uid, reviewerId := rid,
             reviewerName := name, reviewerPhoto := photo, text := text, rating := r }] ∧
      (postReview st (some uid) (some rid) name photo (some text) (some r)).2
        = .ok ((postReview st (some uid) (some rid) name photo
            (some text) (some r)).1.reviews.filter (fun rv => rv.userId == uid)) ∧
      ({ id := st.nextReviewId, userId := uid, reviewerId := rid, reviewerName := name,
         reviewerPhoto := photo, text := text, rating := r } : ReviewRow)
        ∈ getReviews (postReview st (some uid) (some rid) name photo
            (some text) (some r)).1 (some uid)) := by
  constructor
  · intro r hout
    by_cases hr0 : r = 0
    · subst hr0
      have hmiss : postReview st (some uid) (some rid) name photo (some text) (some 0)
          = (st, .missingFields) := by
        simp [postReview]
      exact ⟨by rw [hmiss], fun rvs => by rw [hmiss]; simp, fun h0 => absurd rfl h0⟩
    · have hA : ¬ (1 ≤ r ∧ r ≤ 5) := by
        rcases hout with h | h <;> omega
      have hfail : postReview st (some uid) (some rid) name photo (some text) (some r)
          = (st, .dbError) := by
        simp [postReview, huid, hrid, htext, hr0, hA]
      exact ⟨by rw [hfail], fun rvs => by rw [hfail]; simp,
        fun _ => ⟨by rw [hfail], rfl⟩⟩
  · intro r hr1 hr5
    have hr0 : ¬ (r = 0) := by omega
    refine ⟨?_, ?_, ?_⟩ <;>
      simp [postReview, getReviews, huid, hrid, htext, hr0, hr1, hr5, hu, hr,
        List.mem_filter]

/-- C7 witness: rating 6 is rejected with nothing stored; rating 3 is
stored and listed. -/
theorem review_rating_spec_witness :
    (postReview
        { users := [{ id := 1, email := "a@b", password := "h" },
                    { id := 2, email := "c@d", password := "h" }] }
        (some 1) (some 2) none none (some "good") (some 6)).1
      = { users := [{ id := 1, email := "a@b", password := "h" },
                    { id := 2, email := "c@d", password := "h" }] } ∧
    (postReview
        { users := [{ id := 1, email := "a@b", password := "h" },
                    { id := 2, email := "c@d", password := "h" }] }
        (some 1) (some 2) none none (some "good") (some 6)).2 = .dbError ∧
    ({ id := 1, userId := 1, reviewerId := 2, reviewerName := none,
       reviewerPhoto := none, text := "good", rating := 3 } : ReviewRow)
      ∈ getReviews (postReview
          { users := [{ id := 1, email := "a@b", password := "h" },
                      { id := 2, email := "c@d", password := "h" }] }
          (some 1) (some 2) none none (some "good") (some 3)).1 (some 1) := by
  have h := review_rating_spec
    { users := [{ id := 1, email := "a@b", password := "h" },
                { id := 2, email := "c@d", password := "h" }] }
    1 2 none none "good" (by decide) (by decide) (by decide) (by decide) (by decide)
  have h6 := h.1 6 (by omega)
  have h3 := h.2 3 (by omega) (by omega)
  exact ⟨h6.1, (h6.2.2 (by omega)).1, h3.2.2⟩

/-! ## Claim C1: accepting a Case -/

/-- C1: accepting an existing Case succeeds with 200 and `caseId`; the
Case then reads back with status "accepted"; exactly one new
ProcessedCase is appended, copying the Case's fields plus executorId and
the executor's resolved email, with status 'in_process'; no other table
changes; if the Case previously had no ProcessedCase there is now exactly
one with this caseId and executorId; a missing Case yields 404 with no
writes; and every non-successful outcome (the rolled-back transaction)
leaves the state exactly unchanged, so the Case is never 'accepted'
without its ProcessedCase nor vice versa. -/
theorem accept_case_spec (st : DB) (cid eid : Nat) (c : CaseRow) (heid : eid ≠ 0)
    (hfound : st.cases.find? (fun x => x.id == cid) = some c)
    (howner : st.users.any (fun u => u.id == c.userId) = true) :
    ((acceptCase st (some cid) (some eid)).2 = .ok cid ∧
     AcceptResult.status (acceptCase st (some cid) (some eid)).2 = 200) ∧
    ((getCaseById (acceptCase st (some cid) (some eid)).1 cid).map (fun v => v.status)
       = some "accepted") ∧
    ((acceptCase st (some cid) (some eid)).1.processedCases
       = st.processedCases ++
         [{ id := st.nextPCId, caseId := c.id, userId := c.userId, title := c.title,
            theme := c.theme, descr := c.descr, cover := c.cover, files := c.files,
            status := "in_process", executorId := some eid,
            executorEmail := (st.users.find? (fun u => u.id == eid)).map
              (fun u => u.email) }]) ∧
    ((acceptCase st (some cid) (some eid)).1.users = st.users ∧
     (acceptCase st (some cid) (some eid)).1.projects = st.projects ∧
     (acceptCase st (some cid) (some eid)).1.reviews = st.reviews) ∧
    (st.processedCases.filter (fun pc => pc.caseId == cid) = [] →
      ((acceptCase st (some cid) (some eid)).1.processedCases.filter
         (fun pc => pc.caseId == cid && pc.executorId == some eid))
        = [{ id := st.nextPCId, caseId := c.id, userId := c.userId, title := c.title,
             theme := c.theme, descr := c.descr, cover := c.cover, files := c.files,
             status := "in_process", executorId := some eid,
             executorEmail := (st.users.find? (fun u => u.id == eid)).map
               (fun u => u.email) }]) ∧
    (∀ st2 cid2 eid2, eid2 ≠ 0 →
      st2.cases.find? (fun x => x.id == cid2) = none →
      acceptCase st2 (some cid2) (some eid2) = (st2, .notFound) ∧
      AcceptResult.status .notFound = 404) ∧
    (∀ st2 p e, (∀ k, (acceptCase st2 p e).2 ≠ AcceptResult.ok k) →
      (acceptCase st2 p e).1 = st2) := by
  have hacc := acceptCase_success_eq st cid eid c heid hfound howner
  have hcid : c.id = cid := by simpa using List.find?_some hfound
  refine ⟨⟨by rw [hacc], by rw [hacc]; rfl⟩, ?_, by rw [hacc],
    ⟨by rw [hacc], by rw [hacc], by rw [hacc]⟩, ?_, ?_, ?_⟩
  · rw [hacc]
    unfold getCaseById
    rw [show ({ st with
          processedCases := _, cases := st.cases.map (fun x =>
            if x.id == cid then { x with status := "accepted" } else x),
          nextPCId := _ } : DB).cases
        = st.cases.map (fun x =>
            if x.id == cid then { x with status := "accepted" } else x) from rfl]
    rw [find?_map_setStatus st.cases cid c hfound]
    simp [shapeCase]
  · intro hempty
    rw [hacc]
    show (st.processedCases ++ [_]).filter _ = _
    rw [List.filter_append]
    have h1 : st.processedCases.filter
        (fun pc => pc.caseId == cid && pc.executorId == some eid) = [] := by
      rw [List.filter_eq_nil_iff]
      intro a ha
      have h2 := List.filter_eq_nil_iff.1 hempty a ha
      simp at h2
      simp [h2]
    rw [h1]
    simp [hcid]
  · intro st2 cid2 eid2 he2 hnone
    refine ⟨?_, rfl⟩
    unfold acceptCase
    simp [he2, hnone]
  · exact fun st2 p e h => acceptCase_fail_unchanged st2 p e h

/-- C1 witness: accepting case 5 as executor 2 in a two-user database. -/
theorem accept_case_spec_witness :
    (acceptCase
        { users := [{ id := 1, email := "o@x", password := "h" },
                    { id := 2, email := "e@x", password := "h" }],
          cases := [{ id := 5, userId := 1, title := "t", theme := some "",
                      descr := some "", cover := none, files := some "[]",
                      status := "open" }] }
        (some 5) (some 2)).2 = .ok 5 ∧
    (getCaseById
        (acceptCase
          { users := [{ id := 1, email := "o@x", password := "h" },
                      { id := 2, email := "e@x", password := "h" }],
            cases := [{ id := 5, userId := 1, title := "t", theme := some "",
                        descr := some "", cover := none, files := some "[]",
                        status := "open" }] }
          (some 5) (some 2)).1 5).map (fun v => v.status) = some "accepted" ∧
    ((acceptCase
        { users := [{ id := 1, email := "o@x", password := "h" },
                    { id := 2, email := "e@x", password := "h" }],
          cases := [{ id := 5, userId := 1, title := "t", theme := some "",
                      descr := some "", cover := none, files := some "[]",
                      status := "open" }] }
        (some 5) (some 2)).1.processedCases.filter
      (fun pc => pc.caseId == 5 && pc.executorId == some 2))
      = [{ id := 1, caseId := 5, userId := 1, title := "t", theme := some "",
           descr := some "", cover := none, files := some "[]",
           status := "in_process", executorId := some 2,
           executorEmail := some "e@x" }] := by
  have h := accept_case_spec
    { users := [{ id := 1, email := "o@x", password := "h" },
                { id := 2, email := "e@x", password := "h" }],
      cases := [{ id := 5, userId := 1, title := "t", theme := some "",
                  descr := some "", cover := none, files := some "[]",
                  status := "open" }] }
    5 2
    { id := 5, userId := 1, title := "t", theme := some "", descr := some "",
      cover := none, files := some "[]", status := "open" }
    (by decide) (by decide) (by decide)
  have hE := h.2.2.2.2.1 (by decide)
  exact ⟨h.1.1, h.2.1, by rw [hE]; rfl⟩

/-! ## Claim C9: a second accept creates a second ProcessedCase -/

/-- C9 counterexample: the sequential operation chain register → create
case 1 → accept case 1 → accept case 1 again (one at a time, no
interleaving) is all-successful and ends with TWO ProcessedCases for
caseId 1, because the accept handler never inspects the Case's current
status; so "each Case has at most one live ProcessedCase" fails in a
reachable state. -/
theorem duplicate_processed_case_cex :
    ((acceptCase
        (acceptCase
          (createCase (register (fun p => p) {} (some "o@x") (some "pw")).1
            (some 1) (some "t") none none none []).1
          (some 1) (some 1)).1
        (some 1) (some 1)).1.processedCases.filter
      (fun pc => pc.caseId == 1)).length = 2 ∧
    ¬ (((acceptCase
        (acceptCase
          (createCase (register (fun p => p) {} (some "o@x") (some "pw")).1
            (some 1) (some "t") none none none []).1
          (some 1) (some 1)).1
        (some 1) (some 1)).1.processedCases.filter
      (fun pc => pc.caseId == 1)).length ≤ 1) := by
  constructor <;> decide

/-- C9 amended: nothing in the accept flow prevents duplicates — the
handler has no status check, so accepting a Case whose status is already
"accepted" succeeds again and increases the number of ProcessedCases for
that caseId by exactly one; a Case can therefore have several live
ProcessedCases even under strictly sequential API use. -/
theorem accept_no_status_check_spec (st : DB) (cid eid : Nat) (c : CaseRow)
    (heid : eid ≠ 0)
    (hfound : st.cases.find? (fun x => x.id == cid) = some c)
    (hstatus : c.status = "accepted")
    (howner : st.users.any (fun u => u.id == c.userId) = true) :
    (acceptCase st (some cid) (some eid)).2 = .ok cid ∧
    ((acceptCase st (some cid) (some eid)).1.processedCases.filter
       (fun pc => pc.caseId == cid)).length
      = (st.processedCases.filter (fun pc => pc.caseId == cid)).length + 1 := by
  have hacc := acceptCase_success_eq st cid eid c heid hfound howner
  have hcid : c.id = cid := by simpa using List.find?_some hfound
  constructor
  · rw [hacc]
  · rw [hacc]
    show ((st.processedCases ++ [_]).filter _).length = _
    rw [List.filter_append]
    simp [hcid]

/-- C9 amended witness: re-accepting the already-accepted case 1. -/
theorem accept_no_status_check_spec_witness :
    (acceptCase
        (acceptCase
          (createCase (register (fun p => p) {} (some "o@x") (some "pw")).1
            (some 1) (some "t") none none none []).1
          (some 1) (some 1)).1
        (some 1) (some 1)).2 = .ok 1 := by
  have h := accept_no_status_check_spec
    (acceptCase
      (createCase (register (fun p => p) {} (some "o@x") (some "pw")).1
        (some 1) (some "t") none none none []).1
      (some 1) (some 1)).1
    1 1
    { id := 1, userId := 1, title := "t", theme := some "", descr := some "",
      cover := none, files := some "[]", status := "accepted" }
    (by decide) (by decide) (by decide) (by decide)
  exact h.1

/-! ## Claim C2: completing a ProcessedCase -/

/-- C2: when no ProcessedCase matches the id scoped by the acting user's
executorId, completion answers 404 and writes nothing; otherwise, in one
transaction, exactly one Project is appended whose
title/theme/description/cover default to the ProcessedCase's values when
the body does not override them, whose files are the stringified body
array or the ProcessedCase's stored value, with status 'closed' and the
executor's resolved email, and that ProcessedCase is deleted; no other
table changes; every non-successful outcome leaves the state exactly
unchanged. -/
theorem complete_case_spec (st : DB) (pid : Nat) (b : CompleteBody) :
    (st.processedCases.find? (pcScopedMatch (some pid) b.userId) = none →
      completeCase st (some pid) b = (st, .notFound) ∧
      CompleteResult.status .notFound = 404) ∧
    (∀ pCase, st.processedCases.find? (pcScopedMatch (some pid) b.userId) = some pCase →
      (st.cases.any (fun x => x.id == pCase.caseId) &&
       st.users.any (fun u => u.id == pCase.userId)) = true →
      (completeCase st (some pid) b).2 = .ok st.nextProjectId ∧
      (completeCase st (some pid) b).1.projects
        = st.projects ++
          [{ id := st.nextProjectId, caseId := pCase.caseId, userId := pCase.userId,
             title := jsOrStr b.title pCase.title,
             theme := jsOrOptStr b.theme pCase.theme,
             descr := jsOrOptStr b.descr pCase.descr,
             cover := jsOrOptStr b.cover pCase.cover,
             files := (match b.files with
                       | some fs => some (jsonStringify (.arr (fs.map .str)))
                       | none => pCase.files),
             status := "closed",
             executorEmail := (st.users.find? (fun u => u.id == b.userId.getD 0)).map
               (fun u => u.email) }] ∧
      (completeCase st (some pid) b).1.processedCases
        = st.processedCases.filter (fun pc => pc.id != pCase.id) ∧
      (completeCase st (some pid) b).1.processedCases.find?
        (fun pc => pc.id == pCase.id) = none ∧
      (completeCase st (some pid) b).1.users = st.users ∧
      (completeCase st (some pid) b).1.cases = st.cases ∧
      (completeCase st (some pid) b).1.reviews = st.reviews) ∧
    (∀ st2 p2 b2, (∀ k, (completeCase st2 p2 b2).2 ≠ CompleteResult.ok k) →
      (completeCase st2 p2 b2).1 = st2) := by
  refine ⟨?_, ?_, ?_⟩
  · intro hnone
    refine ⟨?_, rfl⟩
    unfold completeCase
    rw [hnone]
  · intro pCase hfound hfk
    have hco := completeCase_success_eq st pid b pCase hfound hfk
    refine ⟨by rw [hco], by rw [hco], by rw [hco], ?_,
      by rw [hco], by rw [hco], by rw [hco]⟩
    rw [hco]
    show (st.processedCases.filter _).find? _ = none
    rw [List.find?_eq_none]
    intro x hx
    have hne := (List.mem_filter.1 hx).2
    simp at hne
    simp [hne]
  · exact fun st2 p2 b2 h => completeCase_fail_unchanged st2 p2 b2 h

/-- C2 witness: completing ProcessedCase 1 as its executor (user 2) with
no body overrides turns it into a Project copying its fields; completing
it as user 3 answers 404 with no writes. -/
theorem complete_case_spec_witness :
    (completeCase
        { users := [{ id := 1, email := "o@x", password := "h" },
                    { id := 2, email := "e@x", password := "h" }],
          cases := [{ id := 5, userId := 1, title := "t", theme := some "",
                      descr := some "", cover := none, files := some "[]",
                      status := "accepted" }],
          processedCases := [{ id := 1, caseId := 5, userId := 1, title := "t",
                               theme := some "", descr := some "", cover := none,
                               files := some "[]", status := "in_process",
                               executorId := some 2, executorEmail := some "e@x" }] }
        (some 1) { userId := some 2 }).1.projects
      = [{ id := 1, caseId := 5, userId := 1, title := "t", theme := some "",
           descr := some "", cover := none, files := some "[]", status := "closed",
           executorEmail := some "e@x" }] ∧
    (completeCase
        { users := [{ id := 1, email := "o@x", password := "h" },
                    { id := 2, email := "e@x", password := "h" }],
          cases := [{ id := 5, userId := 1, title := "t", theme := some "",
                      descr := some "", cover := none, files := some "[]",
                      status := "accepted" }],
          processedCases := [{ id := 1, caseId := 5, userId := 1, title := "t",
                               theme := some "", descr := some "", cover := none,
                               files := some "[]", status := "in_process",
                               executorId := some 2, executorEmail := some "e@x" }] }
        (some 1) { userId := some 2 }).1.processedCases = [] ∧
    completeCase
        { users := [{ id := 1, email := "o@x", password := "h" },
                    { id := 2, email := "e@x", password := "h" }],
          cases := [{ id := 5, userId := 1, title := "t", theme := some "",
                      descr := some "", cover := none, files := some "[]",
                      status := "accepted" }],
          processedCases := [{ id := 1, caseId := 5, userId := 1, title := "t",
                               theme := some "", descr := some "", cover := none,
                               files := some "[]", status := "in_process",
                               executorId := some 2, executorEmail := some "e@x" }] }
        (some 1) { userId := some 3 }
      = ({ users := [{ id := 1, email := "o@x", password := "h" },
                     { id := 2, email := "e@x", password := "h" }],
           cases := [{ id := 5, userId := 1, title := "t", theme := some "",
                       descr := some "", cover := none, files := some "[]",
                       status := "accepted" }],
           processedCases := [{ id := 1, caseId := 5, userId := 1, title := "t",
                                theme := some "", descr := some "", cover := none,
                                files := some "[]", status := "in_process",
                                executorId := some 2, executorEmail := some "e@x" }] },
         .notFound) := by
  have h := complete_case_spec
    { users := [{ id := 1, email := "o@x", password := "h" },
                { id := 2, email := "e@x", password := "h" }],
      cases := [{ id := 5, userId := 1, title := "t", theme := some "",
                  descr := some "", cover := none, files := some "[]",
                  status := "accepted" }],
      processedCases := [{ id := 1, caseId := 5, userId := 1, title := "t",
                           theme := some "", descr := some "", cover := none,
                           files := some "[]", status := "in_process",
                           executorId := some 2, executorEmail := some "e@x" }] }
    1 { userId := some 2 }
  have hok := h.2.1
    { id := 1, caseId := 5, userId := 1, title := "t", theme := some "",
      descr := some "", cover := none, files := some "[]", status := "in_process",
      executorId := some 2, executorEmail := some "e@x" }
    (by decide) (by decide)
  have h404 := (complete_case_spec
    { users := [{ id := 1, email := "o@x", password := "h" },
                { id := 2, email := "e@x", password := "h" }],
      cases := [{ id := 5, userId := 1, title := "t", theme := some "",
                  descr := some "", cover := none, files := some "[]",
                  status := "accepted" }],
      processedCases := [{ id := 1, caseId := 5, userId := 1, title := "t",
                           theme := some "", descr := some "", cover := none,
                           files := some "[]", status := "in_process",
                           executorId := some 2, executorEmail := some "e@x" }] }
    1 { userId := some 3 }).1 (by decide)
  exact ⟨by rw [hok.2.1]; rfl, by rw [hok.2.2.1]; rfl, h404.1⟩

/-- An encoded array is never the empty string (it starts with a
bracket), so the truthiness test on the stored column passes. -/
theorem jsonStringify_arr_ne_empty (l : List Json) : jsonStringify (.arr l) ≠ "" := by
  rw [jsonStringify]
  intro h
  have hlen := congrArg String.length h
  have hb1 : ("[" : String).length = 1 := rfl
  simp [String.length_append, hb1] at hlen

/-! ## Claim C4: every `files` write is a JSON-encoded array that round-trips -/

/-- C4: (i) for every list of path strings, parsing the stored encoding
yields the list again (the parse/stringify round trip); (ii) case
creation stores files as the encoding of the uploaded path list, every
other Case row being untouched; (iii) the upload endpoint, on a row whose
stored value is an encoded array of strings, parses it back, appends the
new paths and stores the encoding of the concatenation (failure to parse
stores nothing); (iv) accept copies the Case's stored files column
verbatim into the new ProcessedCase; (v) complete stores the encoding of
the body's file list, or copies the ProcessedCase's stored value when the
body has none — so given (i)-(ii), every write of `files` in an
API-reachable state is a JSON-encoded array of path strings. -/
theorem files_encoding_spec :
    (∀ xs : List String,
      jsonParse (jsonStringify (.arr (xs.map .str))) = some (.arr (xs.map .str))) ∧
    (∀ st uid title theme descr cover fps c,
      c ∈ (createCase st uid title theme descr cover fps).1.cases →
      c ∈ st.cases ∨ c.files = some (jsonStringify (.arr (fps.map .str)))) ∧
    (∀ st pcId newFiles old pc, newFiles ≠ [] →
      st.processedCases.find? (fun x => x.id == pcId) = some pc →
      pc.files = some (jsonStringify (.arr (old.map .str))) →
      uploadFiles st pcId newFiles
        = ({ st with processedCases := st.processedCases.map (fun p =>
              if p.id == pcId then
                { p with files := some (jsonStringify (.arr ((old ++ newFiles).map .str))) }
              else p) },
           .ok (.arr ((old ++ newFiles).map .str)))) ∧
    (∀ st cid eid c, eid ≠ 0 →
      st.cases.find? (fun x => x.id == cid) = some c →
      st.users.any (fun u => u.id == c.userId) = true →
      ∃ pc, (acceptCase st (some cid) (some eid)).1.processedCases
          = st.processedCases ++ [pc] ∧ pc.files = c.files) ∧
    (∀ st pid b pCase,
      st.processedCases.find? (pcScopedMatch (some pid) b.userId) = some pCase →
      (st.cases.any (fun x => x.id == pCase.caseId) &&
       st.users.any (fun u => u.id == pCase.userId)) = true →
      ∃ pr, (completeCase st (some pid) b).1.projects = st.projects ++ [pr] ∧
        pr.files = (match b.files with
                    | some fs => some (jsonStringify (.arr (fs.map .str)))
                    | none => pCase.files)) := by
  refine ⟨jsonParse_stringify_strs, ?_, ?_, ?_, ?_⟩
  · intro st uid title theme descr cover fps c hc
    unfold createCase at hc
    by_cases h1 : uid = none ∨ title = none ∨ title = some ""
    · rw [if_pos h1] at hc
      exact Or.inl hc
    · rw [if_neg h1] at hc
      by_cases h2 : st.users.any (fun u => u.id == uid.getD 0) = true
      · simp only [h2, if_true] at hc
        rcases List.mem_append.1 hc with h | h
        · exact Or.inl h
        · right
          simp at h
          rw [h]
      · simp only [h2, if_false] at hc
        exact Or.inl hc
  · intro st pcId newFiles old pc hnf hfound hfiles
    have hne : newFiles.isEmpty = false := by simp [List.isEmpty_eq_false, hnf]
    have hse : jsonStringify (.arr (old.map .str)) ≠ "" := jsonStringify_arr_ne_empty _
    have hcp : jsConcatPaths (.arr (old.map .str)) newFiles
        = some (.arr ((old ++ newFiles).map .str)) := by
      simp [jsConcatPaths, List.map_append]
    simp [uploadFiles, hne, hfound, hfiles, hse, jsonParse_stringify_strs, hcp]
  · intro st cid eid c heid hfound howner
    have hacc := acceptCase_success_eq st cid eid c heid hfound howner
    refine ⟨_, by rw [hacc], rfl⟩
  · intro st pid b pCase hfound hfk
    have hco := completeCase_success_eq st pid b pCase hfound hfk
    refine ⟨_, by rw [hco], rfl⟩

/-- C4 witness: uploading a second path to a ProcessedCase whose stored
files value is an encoded one-element array stores the encoded
two-element array, which parses back losslessly. -/
theorem files_encoding_spec_witness :
    jsonParse (jsonStringify (.arr (["/uploads/a.png", "/uploads/b.png"].map .str)))
      = some (.arr (["/uploads/a.png", "/uploads/b.png"].map .str)) ∧
    uploadFiles
        { processedCases := [{ id := 1, caseId := 1, userId := 1, title := "t",
                               files := some "[\"/uploads/a.png\"]" }] }
        1 ["/uploads/b.png"]
      = ({ processedCases := [{ id := 1, caseId := 1, userId := 1, title := "t",
                                files := some "[\"/uploads/a.png\",\"/uploads/b.png\"]" }] },
         .ok (.arr [.str "/uploads/a.png", .str "/uploads/b.png"])) := by
  constructor
  · exact files_encoding_spec.1 ["/uploads/a.png", "/uploads/b.png"]
  · have h := files_encoding_spec.2.2.1
      { processedCases := [{ id := 1, caseId := 1, userId := 1, title := "t",
                             files := some "[\"/uploads/a.png\"]" }] }
      1 ["/uploads/b.png"] ["/uploads/a.png"]
      { id := 1, caseId := 1, userId := 1, title := "t",
        files := some "[\"/uploads/a.png\"]" }
      (by decide) (by decide) (by decide)
    rw [h]
    rfl

end IdeaFlow
